import Mathlib

/-!
Verification of the travel-explorer backend (`src/backend/src/index.ts`):
a shallow embedding of its password codec, session registry, reset-token
flow, theme endpoint, and forecast aggregator, together with theorems
settling the specification's claims about them.

JavaScript strings are modelled as Lean `String` (a list of characters);
the string primitives the backend uses (`split`, `trim`, `slice`,
`toLowerCase`) are re-implemented structurally on `String.data` so that
every definition evaluates by kernel reduction.  JavaScript numbers are
modelled as exact rationals: every numeric value the claims exercise is
exactly representable in binary floating point, so the rational model
agrees with the JS evaluation on those inputs.
-/

/-! ## JavaScript string primitives -/

/-- `s.split(sep)` for a one-character separator, on character lists. -/
def splitChar (sep : Char) : List Char → List (List Char)
  | [] => [[]]
  | c :: rest =>
    let r := splitChar sep rest
    if c = sep then [] :: r
    else
      match r with
      | [] => [[c]]
      | h :: t => (c :: h) :: t

/-- JavaScript `s.split(sep)` for a one-character separator string. -/
def jsSplit (s : String) (sep : Char) : List String :=
  (splitChar sep s.data).map String.mk

/-- The whitespace characters JavaScript `trim()` removes (the ones
relevant to this development: ASCII whitespace plus NBSP and BOM). -/
def isJsWhitespace (c : Char) : Bool :=
  c = ' ' ∨ c = '\t' ∨ c = '\n' ∨ c = '\r' ∨ c = '\x0b' ∨ c = '\x0c' ∨
    c = ' ' ∨ c = '﻿'

/-- JavaScript `s.trim()`. -/
def jsTrim (s : String) : String :=
  String.mk (((s.data.dropWhile isJsWhitespace).reverse.dropWhile isJsWhitespace).reverse)

/-- JavaScript `s.toLowerCase()` (ASCII case mapping suffices here). -/
def jsToLower (s : String) : String :=
  String.mk (s.data.map Char.toLower)

/-- JavaScript `s.slice(0, n)` (code points; the strings involved are ASCII). -/
def jsSlice0 (s : String) (n : Nat) : String :=
  String.mk (s.data.take n)

/-! ## JavaScript number conversion

`Number(string)` is modelled as `Option ℚ`: `none` stands for every
non-finite result (`NaN`, `Infinity`, `-Infinity`), which the backend
only ever inspects through `Number.isFinite`; `some q` is a finite
result, modelled exactly (the backend's inputs are small enough that
float rounding does not change any claim). -/

def chDigit (c : Char) : Nat := c.toNat - '0'.toNat

def natOfDigits (ds : List Char) : Nat :=
  ds.foldl (fun a c => 10 * a + chDigit c) 0

/-- Parse the optional exponent suffix `e±ddd` of a decimal literal. -/
def parseExp : List Char → Option Int
  | [] => some 0
  | 'e' :: rest => parseSignedDigits rest
  | 'E' :: rest => parseSignedDigits rest
  | _ => none
where
  parseSignedDigits : List Char → Option Int
    | [] => none
    | '+' :: ds => if ds ≠ [] ∧ ds.all Char.isDigit then some (natOfDigits ds) else none
    | '-' :: ds => if ds ≠ [] ∧ ds.all Char.isDigit then some (-(natOfDigits ds : Int)) else none
    | ds => if ds.all Char.isDigit then some (natOfDigits ds) else none

/-- The rational `(ddd.ddd) · 10^e` denoted by integer digits `ip`,
fraction digits `fp` and exponent `e` (built with `mkRat` only, so that
it evaluates by kernel reduction). -/
def decValue (ip fp : List Char) (e : Int) : ℚ :=
  let m : Nat := natOfDigits (ip ++ fp)
  if 0 ≤ e then mkRat (m * 10 ^ e.toNat : Nat) (10 ^ fp.length)
  else mkRat (m : Nat) (10 ^ fp.length * 10 ^ (-e).toNat)

/-- Parse an unsigned decimal literal `ddd[.ddd][e±ddd]`. -/
def parseDecBody (cs : List Char) : Option ℚ :=
  let ip := cs.takeWhile Char.isDigit
  let rest := cs.dropWhile Char.isDigit
  match rest with
  | '.' :: rest2 =>
    let fp := rest2.takeWhile Char.isDigit
    let rest3 := rest2.dropWhile Char.isDigit
    if ip = [] ∧ fp = [] then none
    else
      match parseExp rest3 with
      | none => none
      | some e => some (decValue ip fp e)
  | _ =>
    if ip = [] then none
    else
      match parseExp rest with
      | none => none
      | some e => some (decValue ip [] e)

/-- Parse a radix-prefixed integer literal body (after `0x`, `0o`, `0b`). -/
def parseRadix (radix : Nat) (cs : List Char) : Option ℚ :=
  let val (c : Char) : Option Nat :=
    if '0' ≤ c ∧ c ≤ '9' then some (c.toNat - '0'.toNat)
    else if 'a' ≤ c ∧ c ≤ 'f' then some (c.toNat - 'a'.toNat + 10)
    else if 'A' ≤ c ∧ c ≤ 'F' then some (c.toNat - 'A'.toNat + 10)
    else none
  let step (acc : Option Nat) (c : Char) : Option Nat :=
    match acc, val c with
    | some a, some v => if v < radix then some (radix * a + v) else none
    | _, _ => none
  if cs = [] then none
  else (cs.foldl step (some 0)).map (fun n => (mkRat n 1 : ℚ))

/-- JavaScript `Number(s)` restricted to finite results (see above). -/
def jsNumber (s : String) : Option ℚ :=
  let cs := (jsTrim s).data
  if cs = [] then some 0
  else if cs = "Infinity".data ∨ cs = "+Infinity".data ∨ cs = "-Infinity".data then none
  else
    match cs with
    | '0' :: 'x' :: rest => parseRadix 16 rest
    | '0' :: 'X' :: rest => parseRadix 16 rest
    | '0' :: 'o' :: rest => parseRadix 8 rest
    | '0' :: 'O' :: rest => parseRadix 8 rest
    | '0' :: 'b' :: rest => parseRadix 2 rest
    | '0' :: 'B' :: rest => parseRadix 2 rest
    | '+' :: rest => parseDecBody rest
    | '-' :: rest => (parseDecBody rest).map Neg.neg
    | _ => parseDecBody cs

/-! ## Password codec (`hashPassword` / `verifyPassword`)

`crypto.pbkdf2Sync` itself is an external library primitive; the key it
derives is abstracted as a `DeriveFn` parameter, but its *validation*
behaviour — documented by Node: `iterations` must be an integer in
`[1, 2^31-1]` and `digest` must name a supported hash, otherwise the
call throws — is modelled explicitly, because `verifyPassword` passes
user-controlled values straight into it. -/

def KEYLEN : Nat := 32
def PBKDF2_ITER : Nat := 120000
def DIGEST : String := "sha256"

/-- Digest names Node's OpenSSL build accepts for pbkdf2. -/
def knownDigests : List String :=
  ["md5", "sha1", "sha224", "sha256", "sha384", "sha512",
   "sha512-224", "sha512-256", "sha3-256", "sha3-512"]

/-- The abstracted key-derivation core: password, salt, iterations,
key length, digest ↦ derived key bytes. -/
def DeriveFn : Type := String → String → Nat → Nat → String → List Nat

/-- Node's `crypto.pbkdf2Sync`: validates its arguments (throwing,
modelled as `Except.error`, when the iteration count is not an integer
in `[1, 2^31-1]` or the digest is unknown), then derives the key. -/
def pbkdf2Sync (derive : DeriveFn) (password salt : String) (iter : ℚ)
    (keylen : Nat) (digest : String) : Except String (List Nat) :=
  if iter.den = 1 ∧ 1 ≤ iter.num ∧ iter.num ≤ 2147483647 then
    if digest ∈ knownDigests then
      Except.ok (derive password salt iter.num.toNat keylen digest)
    else Except.error "Invalid digest"
  else Except.error "iterations out of range"

def hexDigitVal (c : Char) : Option Nat :=
  if '0' ≤ c ∧ c ≤ '9' then some (c.toNat - '0'.toNat)
  else if 'a' ≤ c ∧ c ≤ 'f' then some (c.toNat - 'a'.toNat + 10)
  else if 'A' ≤ c ∧ c ≤ 'F' then some (c.toNat - 'A'.toNat + 10)
  else none

/-- Node `Buffer.from(s, "hex")`: decodes hex pairs greedily, stopping at
the first invalid pair; a trailing lone character is dropped. -/
def bufferFromHex : List Char → List Nat
  | c1 :: c2 :: rest =>
    match hexDigitVal c1, hexDigitVal c2 with
    | some h, some l => (16 * h + l) :: bufferFromHex rest
    | _, _ => []
  | _ => []

/-- `verifyPassword(password, stored)` from `index.ts` lines 73–86:
splits the stored encoding on `$`, requires exactly five fields, parses
the iteration field with `Number`, rejects (returns `false`) when a
field is empty or the iteration value is not finite, then calls
`pbkdf2Sync` (which can throw) and compares against the stored hex hash,
treating a length mismatch as a non-match. -/
def verifyPassword (derive : DeriveFn) (password stored : String) :
    Except String Bool :=
  match jsSplit stored '$' with
  | [_, digest, iterStr, salt, hashHex] =>
    match jsNumber iterStr with
    | none => Except.ok false
    | some iter =>
      if digest = "" ∨ salt = "" ∨ hashHex = "" then Except.ok false
      else
        match pbkdf2Sync derive password salt iter KEYLEN digest with
        | Except.error e => Except.error e
        | Except.ok derivedKey =>
          let storedBuf := bufferFromHex hashHex.data
          if storedBuf.length ≠ derivedKey.length then Except.ok false
          else Except.ok (storedBuf == derivedKey)
  | _ => Except.ok false

/-! ## Session registry (`sessions` map, `/auth/logout`)

The process-wide `Map<string, number>` from token to user id, with the
operations the dispatcher performs on it: insertion on login/register
(`issue`), lookup in `requireAuth` (`resolve`) and deletion on logout
(`revoke`).  A JS `Map` keeps insertion order; `set` overwrites an
existing key in place, `delete` of an absent key is a no-op. -/

def Sessions : Type := List (String × Nat)

/-- `sessions.get(t)`. -/
def Sessions.resolve : Sessions → String → Option Nat
  | [], _ => none
  | (k, v) :: rest, t => if k = t then some v else Sessions.resolve rest t

/-- `sessions.set(t, u)`. -/
def Sessions.issue (m : Sessions) (t : String) (u : Nat) : Sessions :=
  if (m.resolve t).isSome then
    m.map (fun p => if p.1 = t then (t, u) else p)
  else List.append m [(t, u)]

/-- `sessions.delete(t)`. -/
def Sessions.revoke (m : Sessions) (t : String) : Sessions :=
  m.filter (fun p => p.1 != t)

/-- `POST /auth/logout`: deletes the presented bearer token if one was
presented, and always answers `200 {success:true}` (the `Bool`). -/
def logout (m : Sessions) (token : String) : Sessions × Bool :=
  (if token = "" then m else m.revoke token, true)

theorem Sessions.resolve_append_of_none {m : Sessions} {t : String}
    (h : m.resolve t = none) (l : Sessions) :
    Sessions.resolve (List.append m l) t = l.resolve t := by
  induction m with
  | nil => rfl
  | cons p rest ih =>
    obtain ⟨k, v⟩ := p
    by_cases hk : k = t
    · simp [Sessions.resolve, hk] at h
    · simp only [Sessions.resolve, hk, if_false, List.append] at h ⊢
      simp only [List.cons_append, Sessions.resolve, hk, if_false] at *
      exact ih h

theorem Sessions.resolve_map_set {t : String} {u : Nat} :
    ∀ m : Sessions, (m.resolve t).isSome →
      Sessions.resolve (m.map (fun p => if p.1 = t then (t, u) else p)) t = some u := by
  intro m
  induction m with
  | nil => intro h; simp [Sessions.resolve] at h
  | cons p rest ih =>
    obtain ⟨k, v⟩ := p
    intro h
    by_cases hk : k = t
    · subst hk
      simp only [List.map_cons]
      simp [Sessions.resolve]
    · simp only [Sessions.resolve, hk, if_false] at h
      simp only [List.map_cons]
      rw [show (if (k, v).1 = t then (t, u) else (k, v)) = (k, v) from if_neg hk]
      simp only [Sessions.resolve, hk, if_false]
      exact ih h

theorem Sessions.resolve_issue (m : Sessions) (t : String) (u : Nat) :
    (m.issue t u).resolve t = some u := by
  cases hr : m.resolve t with
  | some v =>
    have h : (m.resolve t).isSome = true := by rw [hr]; rfl
    unfold Sessions.issue
    rw [if_pos h]
    exact Sessions.resolve_map_set m h
  | none =>
    have h : ¬ ((m.resolve t).isSome = true) := by rw [hr]; simp
    unfold Sessions.issue
    rw [if_neg h]
    rw [Sessions.resolve_append_of_none hr]
    simp [Sessions.resolve]

theorem Sessions.resolve_revoke (m : Sessions) (t : String) :
    (m.revoke t).resolve t = none := by
  induction m with
  | nil => rfl
  | cons p rest ih =>
    obtain ⟨k, v⟩ := p
    by_cases hk : k = t
    · simpa [Sessions.revoke, hk] using ih
    · simp only [Sessions.revoke, List.filter_cons] at ih ⊢
      simp [hk, Sessions.resolve, ih]

theorem Sessions.revoke_of_absent : ∀ {m : Sessions} {t : String},
    m.resolve t = none → m.revoke t = m := by
  intro m
  induction m with
  | nil => intro t _; rfl
  | cons p rest ih =>
    intro t h
    obtain ⟨k, v⟩ := p
    by_cases hk : k = t
    · simp [Sessions.resolve, hk] at h
    · simp only [Sessions.resolve, hk, if_false] at h
      simp only [Sessions.revoke, List.filter_cons]
      simp only [Sessions.revoke] at ih
      simp [hk, ih h]

theorem Sessions.revoke_revoke (m : Sessions) (t : String) :
    (m.revoke t).revoke t = m.revoke t := by
  simp [Sessions.revoke, List.filter_filter]

/-! ## Reset-token flow (`POST /auth/request-reset`, `POST /auth/reset`)

The database row for one user, as the reset handlers read and write it.
`hashPassword` draws a fresh random salt, so the new credential is
passed in as an abstract `newHash`; the freshly generated token is
likewise passed in.  The handlers' JS falsiness tests on the row fields
(`!row.reset_token`, `!row.reset_expires`) are modelled exactly: they
also fire on an empty-string token and on a zero expiry. -/

structure UserRow where
  id : Nat
  password_hash : String
  reset_token : Option String
  reset_expires : Option Int
deriving DecidableEq

/-- The distinct outcomes the `POST /auth/reset` handler can produce. -/
inductive ResetResp
  | fieldsRequired
  | passwordTooShort
  | notRequested
  | invalidToken
  | tokenExpired
  | success
deriving DecidableEq

/-- The observable HTTP response (status code, JSON payload text) that
`sendJson` emits for each outcome of `POST /auth/reset`. -/
def ResetResp.response : ResetResp → Nat × String
  | ResetResp.fieldsRequired => (400, "email, resetToken, newPassword required")
  | ResetResp.passwordTooShort => (400, "newPassword must be at least 6 characters")
  | ResetResp.notRequested => (400, "reset not requested")
  | ResetResp.invalidToken => (400, "invalid token")
  | ResetResp.tokenExpired => (400, "token expired")
  | ResetResp.success => (200, "success:true")

/-- `POST /auth/reset` (`index.ts` lines 277–310).  `row` is the user
row the email lookup returns; the result pairs the response with the
row as left in the database (the successful branch performs the single
`UPDATE` that replaces the credential and clears both reset fields). -/
def consumeReset (row : Option UserRow) (email resetToken newPassword : String)
    (now : Int) (newHash : String) : ResetResp × Option UserRow :=
  if jsToLower (jsTrim email) = "" ∨ jsTrim resetToken = "" ∨ newPassword = "" then
    (ResetResp.fieldsRequired, row)
  else if newPassword.length < 6 then (ResetResp.passwordTooShort, row)
  else
    match row with
    | none => (ResetResp.notRequested, none)
    | some r =>
      if r.reset_token = none ∨ r.reset_token = some "" ∨
          r.reset_expires = none ∨ r.reset_expires = some 0 then
        (ResetResp.notRequested, some r)
      else if r.reset_token ≠ some (jsTrim resetToken) then (ResetResp.invalidToken, some r)
      else if r.reset_expires.getD 0 < now then (ResetResp.tokenExpired, some r)
      else
        (ResetResp.success,
         some { id := r.id, password_hash := newHash,
                reset_token := none, reset_expires := none })

/-- The outcomes of `POST /auth/request-reset`: a missing email is a
400; otherwise the handler answers 200, with the token and expiry in
the body only when the email belongs to a registered user. -/
inductive ReqResetResp
  | emailRequired
  | successOnly
  | successWithToken (resetToken : String) (expires : Int)
deriving DecidableEq

def ReqResetResp.httpStatus : ReqResetResp → Nat
  | ReqResetResp.emailRequired => 400
  | ReqResetResp.successOnly => 200
  | ReqResetResp.successWithToken _ _ => 200

/-- `POST /auth/request-reset` (`index.ts` lines 246–274).  `userLookup`
is the id the email lookup returns; `newToken` the freshly generated
token.  Pairs the response with the reset fields written to the user's
row, if any. -/
def requestReset (bodyEmail : String) (userLookup : Option Nat)
    (newToken : String) (now : Int) :
    ReqResetResp × Option (Nat × String × Int) :=
  let email := jsToLower (jsTrim bodyEmail)
  if email = "" then (ReqResetResp.emailRequired, none)
  else
    match userLookup with
    | none => (ReqResetResp.successOnly, none)
    | some uid =>
      let expires := now + 15 * 60 * 1000
      (ReqResetResp.successWithToken newToken expires, some (uid, newToken, expires))

/-! ## Theme endpoint (`PUT /me/theme`) -/

/-- JavaScript `v || dflt` for an optional string: the default replaces
a missing (`undefined`/`null`) value and the falsy empty string. -/
def jsOrDefault (v : Option String) (dflt : String) : String :=
  match v with
  | none => dflt
  | some s => if s = "" then dflt else s

inductive ThemeResp
  | unauthorized
  | methodNotAllowed
  | invalidTheme
  | themeOk (theme : String)
deriving DecidableEq

/-- `PUT /me/theme` (`index.ts` lines 326–340): requires auth first,
then the PUT method, defaults a falsy `theme` to `"system"`, validates
against the enum, and persists.  The result pairs the response with the
`(userId, theme)` row update, if one happens. -/
def themeHandler (auth : Option Nat) (method : String) (bodyTheme : Option String) :
    ThemeResp × Option (Nat × String) :=
  match auth with
  | none => (ThemeResp.unauthorized, none)
  | some userId =>
    if method ≠ "PUT" then (ThemeResp.methodNotAllowed, none)
    else
      let theme := jsOrDefault bodyTheme "system"
      if theme ∈ ["system", "light", "dark"] then
        (ThemeResp.themeOk theme, some (userId, theme))
      else (ThemeResp.invalidTheme, none)

/-! ## Forecast aggregator (`GET /api/forecast`, lines 421–463)

One upstream 3-hour forecast sample, reduced to the fields the
aggregation loop reads: `item.dt_txt` (absent modelled as `none`, which
the code turns into `""`), `item.main.temp_min`, `item.main.temp_max`,
`item.main.temp` (each possibly absent), and the already-stringified
description and icon (absent modelled as `""`). Temperatures are exact
rationals (see the header comment). -/

structure Sample where
  dt_txt : Option String
  temp_min : Option ℚ
  temp_max : Option ℚ
  temp : Option ℚ
  description : String
  icon : String
deriving DecidableEq

/-- `item.dt_txt || ""`. -/
def Sample.dtTxt (s : Sample) : String := s.dt_txt.getD ""

/-- `dtTxt.slice(0, 10)`. -/
def Sample.dateKey (s : Sample) : String := jsSlice0 s.dtTxt 10

/-- `Number(item.main?.temp_min ?? item.main?.temp ?? 0)`. -/
def Sample.tmin (s : Sample) : ℚ := (s.temp_min.orElse (fun _ => s.temp)).getD 0

/-- `Number(item.main?.temp_max ?? item.main?.temp ?? 0)`. -/
def Sample.tmax (s : Sample) : ℚ := (s.temp_max.orElse (fun _ => s.temp)).getD 0

/-- One `byDay` bucket: running min and max plus the collected non-empty
descriptions and icons for a date. -/
structure Bucket where
  bmin : ℚ
  bmax : ℚ
  descriptions : List String
  icons : List String
deriving DecidableEq

/-- The effect of one loop iteration on the bucket for the sample's own
date: a fresh bucket from the first sample, otherwise `Math.min`/`Math.max`
folding; in both cases the sample's description and icon are appended
when (and only when) they are non-empty (`if (desc) ... push`). -/
def updBucket : Option Bucket → Sample → Bucket
  | none, s =>
    { bmin := s.tmin, bmax := s.tmax,
      descriptions := if s.description = "" then [] else [s.description],
      icons := if s.icon = "" then [] else [s.icon] }
  | some b, s =>
    { bmin := min b.bmin s.tmin, bmax := max b.bmax s.tmax,
      descriptions := b.descriptions ++ (if s.description = "" then [] else [s.description]),
      icons := b.icons ++ (if s.icon = "" then [] else [s.icon]) }

/-- The `byDay` record, as an insertion-ordered association list (JS
object string keys enumerate in insertion order; the keys are sorted
afterwards anyway). -/
def ByDay : Type := List (String × Bucket)

def ByDay.lookup : ByDay → String → Option Bucket
  | [], _ => none
  | (k, b) :: rest, d => if k = d then some b else ByDay.lookup rest d

/-- One iteration of the `for (const item of data.list)` loop: samples
whose date key is empty are skipped (`if (!dateKey) continue`); a new
date appends a fresh bucket, an existing date's bucket is updated in
place. -/
def stepSample (acc : ByDay) (s : Sample) : ByDay :=
  let k := s.dateKey
  if k = "" then acc
  else
    match acc.lookup k with
    | none => List.append acc [(k, updBucket none s)]
    | some b => acc.map (fun p => if p.1 = k then (k, updBucket (some b) s) else p)

def ByDay.keys (acc : ByDay) : List String := acc.map Prod.fst

/-- Lexicographic comparison of character lists by code point — the
order JS `Array.prototype.sort()`'s default comparator induces on the
(ASCII) date keys. -/
def charListLe : List Char → List Char → Bool
  | [], _ => true
  | _ :: _, [] => false
  | a :: as, b :: bs =>
    if a.toNat < b.toNat then true
    else if b.toNat < a.toNat then false
    else charListLe as bs

/-- The sort order on date-key strings. -/
def strLe (a b : String) : Prop := charListLe a.data b.data = true

instance : DecidableRel strLe :=
  fun a b => inferInstanceAs (Decidable (charListLe a.data b.data = true))

theorem charListLe_total : ∀ as bs : List Char,
    charListLe as bs = true ∨ charListLe bs as = true := by
  intro as
  induction as with
  | nil => intro bs; left; rfl
  | cons a as ih =>
    intro bs
    cases bs with
    | nil => right; rfl
    | cons b bs =>
      by_cases hab : a.toNat < b.toNat
      · left; simp [charListLe, hab]
      · by_cases hba : b.toNat < a.toNat
        · right; simp [charListLe, hba]
        · rcases ih bs with h | h
          · left; simp [charListLe, hab, hba, h]
          · right; simp [charListLe, hab, hba, h]

theorem charListLe_trans : ∀ as bs cs : List Char,
    charListLe as bs = true → charListLe bs cs = true → charListLe as cs = true := by
  intro as
  induction as with
  | nil => intro bs cs _ _; rfl
  | cons a as ih =>
    intro bs cs hab hbc
    cases bs with
    | nil => simp [charListLe] at hab
    | cons b bs =>
      cases cs with
      | nil => simp [charListLe] at hbc
      | cons c cs =>
        simp only [charListLe] at hab hbc ⊢
        by_cases h1 : a.toNat < b.toNat
        · by_cases h2 : b.toNat < c.toNat
          · have : a.toNat < c.toNat := Nat.lt_trans h1 h2
            simp [this]
          · by_cases h3 : c.toNat < b.toNat
            · simp [h2, h3] at hbc
            · have hbceq : b.toNat = c.toNat := by omega
              have : a.toNat < c.toNat := hbceq ▸ h1
              simp [this]
        · by_cases h4 : b.toNat < a.toNat
          · simp [h1, h4] at hab
          · have habeq : a.toNat = b.toNat := by omega
            simp only [h1, if_neg, h4, if_false] at hab
            by_cases h2 : b.toNat < c.toNat
            · have : a.toNat < c.toNat := habeq ▸ h2
              simp [this]
            · by_cases h3 : c.toNat < b.toNat
              · simp [h2, h3] at hbc
              · have hbceq : b.toNat = c.toNat := by omega
                simp only [h2, h3, if_neg, if_false] at hbc
                have hac : ¬ a.toNat < c.toNat := by omega
                have hca : ¬ c.toNat < a.toNat := by omega
                simp only [hac, hca, if_neg, if_false]
                exact ih bs cs (by simpa [h1, h4] using hab) (by simpa [h2, h3] using hbc)

instance : IsTotal String strLe := ⟨fun a b => charListLe_total a.data b.data⟩

instance : IsTrans String strLe :=
  ⟨fun a b c hab hbc => charListLe_trans a.data b.data c.data hab hbc⟩

/-- `Math.round(x)`: round to the nearest integer, halves toward
positive infinity; equals `⌊x + 1/2⌋`, written with `Int` floor
division so it evaluates by kernel reduction. -/
def jsRound (x : ℚ) : Int := (2 * x.num + x.den) / (2 * (x.den : Int))

/-- `Math.round(x * 10) / 10`: the one-decimal rounding applied to each
output temperature. -/
def round1 (x : ℚ) : ℚ := mkRat (jsRound (mkRat (x.num * 10) x.den)) 10

structure ForecastDay where
  date : String
  fmin : ℚ
  fmax : ℚ
  description : String
  icon : String
deriving DecidableEq

/-- The `forecast.push({...})` projection of one bucket. -/
def mkDay (d : String) (b : Bucket) : ForecastDay :=
  { date := d, fmin := round1 b.bmin, fmax := round1 b.bmax,
    description := b.descriptions.headD "", icon := b.icons.headD "" }

/-- The aggregation loop of the `GET /api/forecast` handler: group the
samples by date key, sort the keys (`Object.keys(byDay).sort()`),
truncate to `maxDays` (`.slice(0, 6)` in the handler), and project each
bucket to a `ForecastDay`. -/
def aggregate (samples : List Sample) (maxDays : Nat) : List ForecastDay :=
  let byDay := samples.foldl stepSample []
  let days := (List.insertionSort strLe byDay.keys).take maxDays
  days.filterMap (fun d => (byDay.lookup d).map (mkDay d))

/-- The sample list of the specification's aggregator test: readings
for 2024-01-01 (temperatures 2, 5, 8) and 2024-01-02 (temperatures
-1, 3), each sample carrying a single reading used for both the min
and max candidate. -/
def specSamples : List Sample :=
  [⟨some "2024-01-01 00:00:00", some 2, some 2, none, "", ""⟩,
   ⟨some "2024-01-01 03:00:00", some 5, some 5, none, "", ""⟩,
   ⟨some "2024-01-01 06:00:00", some 8, some 8, none, "", ""⟩,
   ⟨some "2024-01-02 00:00:00", some (-1), some (-1), none, "", ""⟩,
   ⟨some "2024-01-02 03:00:00", some 3, some 3, none, "", ""⟩]

theorem ByDay.lookup_none_not_mem : ∀ (acc : ByDay) (k : String),
    acc.lookup k = none → ¬ k ∈ acc.keys := by
  intro acc
  induction acc with
  | nil => intro k _ h; simp [ByDay.keys] at h
  | cons p rest ih =>
    intro k hl hm
    obtain ⟨k', b⟩ := p
    by_cases hk : k' = k
    · simp [ByDay.lookup, hk] at hl
    · simp only [ByDay.lookup, hk, if_false] at hl
      simp only [ByDay.keys, List.map_cons, List.mem_cons] at hm
      rcases hm with hm | hm
      · exact hk hm.symm
      · exact ih k hl hm

theorem ByDay.keys_map_update (acc : ByDay) (k : String) (nb : Bucket) :
    ByDay.keys (acc.map (fun p => if p.1 = k then (k, nb) else p)) = acc.keys := by
  unfold ByDay.keys
  rw [List.map_map]
  apply List.map_congr_left
  intro p _
  by_cases hp : p.1 = k
  · simp [hp]
  · simp [hp]

theorem ByDay.keys_step_nodup (acc : ByDay) (s : Sample)
    (h : acc.keys.Nodup) : (stepSample acc s).keys.Nodup := by
  unfold stepSample
  by_cases hk : s.dateKey = ""
  · simpa [hk] using h
  · simp only [hk, if_false]
    cases hl : acc.lookup s.dateKey with
    | none =>
      have hnm := ByDay.lookup_none_not_mem acc s.dateKey hl
      simp only [ByDay.keys, List.append_eq, List.map_append, List.map_cons, List.map_nil]
      rw [List.nodup_append]
      refine ⟨h, List.nodup_singleton _, ?_⟩
      intro a ha hb
      simp only [List.mem_singleton] at hb
      exact hnm (hb ▸ ha)
    | some b =>
      rw [ByDay.keys_map_update]
      exact h

theorem ByDay.keys_foldl_nodup : ∀ (samples : List Sample) (acc : ByDay),
    acc.keys.Nodup → (samples.foldl stepSample acc).keys.Nodup := by
  intro samples
  induction samples with
  | nil => intro acc h; exact h
  | cons s rest ih =>
    intro acc h
    rw [List.foldl_cons]
    exact ih _ (ByDay.keys_step_nodup acc s h)

theorem map_date_filterMap_sublist (byDay : ByDay) : ∀ days : List String,
    List.Sublist ((days.filterMap (fun d => (byDay.lookup d).map (mkDay d))).map ForecastDay.date) days := by
  intro days
  induction days with
  | nil => simp
  | cons d rest ih =>
    simp only [List.filterMap_cons]
    cases h : byDay.lookup d with
    | none => exact ih.cons d
    | some b =>
      simp only [Option.map_some', List.map_cons]
      have hd : (mkDay d b).date = d := rfl
      rw [hd]
      exact ih.cons₂ d

theorem consumeReset_success_shape (r : UserRow) (email tok pw : String)
    (now : Int) (nh : String)
    (h : (consumeReset (some r) email tok pw now nh).1 = ResetResp.success) :
    r.reset_token = some (jsTrim tok) ∧ (∃ e, r.reset_expires = some e ∧ now ≤ e) ∧
      (consumeReset (some r) email tok pw now nh).2 =
        some ⟨r.id, nh, none, none⟩ := by
  unfold consumeReset at h ⊢
  dsimp only at h ⊢
  split_ifs at h ⊢ with h1 h2 h3 h4 h5
  push_neg at h3 h4
  obtain ⟨ht1, ht2, he1, he2⟩ := h3
  cases hE : r.reset_expires with
  | none => exact absurd hE he1
  | some e =>
    refine ⟨h4, ⟨e, rfl, ?_⟩, rfl⟩
    rw [hE] at h5
    simp only [Option.getD_some] at h5
    omega

theorem consumeReset_no_token (r : UserRow) (hr : r.reset_token = none)
    (email tok pw : String) (now : Int) (nh : String) :
    (consumeReset (some r) email tok pw now nh).1 ≠ ResetResp.success := by
  unfold consumeReset
  dsimp only
  split_ifs with h1 h2 h3 h4 h5 <;>
    first
      | exact absurd (Or.inl hr) h3
      | simp

theorem consumeReset_expired_fails (r : UserRow) (email tok pw : String)
    (now : Int) (nh : String) (e : Int)
    (hexp : r.reset_expires = some e) (hlt : e < now) :
    (consumeReset (some r) email tok pw now nh).1 ≠ ResetResp.success := by
  unfold consumeReset
  dsimp only
  split_ifs with h1 h2 h3 h4 h5 <;>
    first
      | exact absurd hlt (by rw [hexp] at h5; simpa using h5)
      | simp

/-- C1: the claim says `verifyPassword` returns `false` and never throws
on any malformed credential encoding, including a zero, negative or
non-integer iteration field.  The five-field check and the
`Number.isFinite` guard do return `false` for a wrong field count or a
NaN iteration field, but a finite non-positive iteration count (such as
`"0"`) passes the guard and is handed to `crypto.pbkdf2Sync`, which
throws; this theorem evaluates the code at that failing input, for every
possible key-derivation core. -/
theorem verifyPassword_zero_iterations_throws :
    ∀ derive : DeriveFn,
      verifyPassword derive "x" "pbkdf2$sha256$0$ab$cd" =
        Except.error "iterations out of range"
      ∧ verifyPassword derive "x" "a$b" = Except.ok false
      ∧ verifyPassword derive "x" "pbkdf2$sha256$notanumber$ab$cd" = Except.ok false := by
  intro derive
  exact ⟨rfl, rfl, rfl⟩

/-- C8: resolving a freshly issued token yields its user; after revoking
a token it resolves to nothing; revoking an absent token is a no-op and
logout always reports success; revoking twice equals revoking once. -/
theorem session_registry_spec :
    (∀ (m : Sessions) (t : String) (u : Nat), (m.issue t u).resolve t = some u)
    ∧ (∀ (m : Sessions) (t : String), (m.revoke t).resolve t = none)
    ∧ (∀ (m : Sessions) (t : String), m.resolve t = none → m.revoke t = m)
    ∧ (∀ (m : Sessions) (t : String), (m.revoke t).revoke t = m.revoke t)
    ∧ (∀ (m : Sessions) (t : String), (logout m t).2 = true) :=
  ⟨Sessions.resolve_issue, Sessions.resolve_revoke,
   fun _ _ h => Sessions.revoke_of_absent h, Sessions.revoke_revoke, fun _ _ => rfl⟩

/-- Witness for C8 at concrete inputs. -/
theorem session_registry_spec_witness :
    Sessions.resolve [("a", 1)] "b" = none
    ∧ Sessions.revoke [("a", 1)] "b" = [("a", 1)]
    ∧ Sessions.resolve (Sessions.issue [] "tok" 7) "tok" = some 7 :=
  ⟨by decide, session_registry_spec.2.2.1 [("a", 1)] "b" (by decide),
   session_registry_spec.1 [] "tok" 7⟩

/-- C9: an authenticated PUT with a missing or empty theme field is
treated as `"system"` (200, persists `"system"`); a present non-empty
value is rejected with 400 exactly when it is outside the enum. -/
theorem themeHandler_empty_defaults_system :
    (∀ uid : Nat,
      themeHandler (some uid) "PUT" none =
        (ThemeResp.themeOk "system", some (uid, "system"))
      ∧ themeHandler (some uid) "PUT" (some "") =
        (ThemeResp.themeOk "system", some (uid, "system")))
    ∧ (∀ (uid : Nat) (t : String), t ≠ "" →
        ((themeHandler (some uid) "PUT" (some t)).1 = ThemeResp.invalidTheme ↔
          ¬ t ∈ (["system", "light", "dark"] : List String))) := by
  constructor
  · intro uid
    exact ⟨rfl, rfl⟩
  · intro uid t ht
    by_cases hmem : t ∈ (["system", "light", "dark"] : List String) <;>
      simp [themeHandler, jsOrDefault, ht, hmem]

/-- Witness for C9 at a concrete invalid theme value. -/
theorem themeHandler_empty_defaults_system_witness :
    ("blue" : String) ≠ ""
    ∧ ((themeHandler (some 1) "PUT" (some "blue")).1 = ThemeResp.invalidTheme ↔
        ¬ ("blue" : String) ∈ (["system", "light", "dark"] : List String)) :=
  ⟨by decide, themeHandler_empty_defaults_system.2 1 "blue" (by decide)⟩

theorem stepSample_of_empty_dt {s : Sample}
    (h : s.dt_txt = none ∨ s.dt_txt = some "") (acc : ByDay) :
    stepSample acc s = acc := by
  have hk : s.dateKey = "" := by
    rcases h with h | h <;>
      simp only [Sample.dateKey, Sample.dtTxt, h, Option.getD_some, Option.getD_none] <;> rfl
  simp [stepSample, hk]

theorem foldl_stepSample_all_empty : ∀ samples : List Sample,
    (∀ s ∈ samples, s.dt_txt = none ∨ s.dt_txt = some "") →
    samples.foldl stepSample ([] : ByDay) = [] := by
  intro samples
  induction samples with
  | nil => intro _; rfl
  | cons s rest ih =>
    intro h
    rw [List.foldl_cons, stepSample_of_empty_dt (h s (List.mem_cons_self s rest))]
    exact ih (fun x hx => h x (List.mem_cons_of_mem s hx))

/-- C10: a sample with an absent or empty `dt_txt` is skipped entirely —
removing it from the list does not change the forecast — and a list of
only such samples aggregates to the empty forecast. -/
theorem aggregate_skips_empty_dt_txt :
    (∀ (l1 l2 : List Sample) (s : Sample) (n : Nat),
        s.dt_txt = none ∨ s.dt_txt = some "" →
        aggregate (l1 ++ s :: l2) n = aggregate (l1 ++ l2) n)
    ∧ (∀ (samples : List Sample) (n : Nat),
        (∀ s ∈ samples, s.dt_txt = none ∨ s.dt_txt = some "") →
        aggregate samples n = []) := by
  constructor
  · intro l1 l2 s n h
    unfold aggregate
    rw [List.foldl_append, List.foldl_append, List.foldl_cons, stepSample_of_empty_dt h]
  · intro samples n h
    unfold aggregate
    rw [foldl_stepSample_all_empty samples h]
    simp [ByDay.keys, List.insertionSort]

/-- Witness for C10: a sample with `dt_txt = ""` contributes nothing,
and a list of one timestampless sample yields an empty forecast. -/
theorem aggregate_skips_empty_dt_txt_witness :
    aggregate [⟨some "", none, none, none, "", ""⟩] 6 = aggregate [] 6
    ∧ aggregate [⟨none, some 1, some 1, none, "x", "y"⟩] 6 = [] :=
  ⟨aggregate_skips_empty_dt_txt.1 [] [] ⟨some "", none, none, none, "", ""⟩ 6 (Or.inr rfl),
   aggregate_skips_empty_dt_txt.2 [⟨none, some 1, some 1, none, "x", "y"⟩] 6
     (fun s hs => by rw [List.mem_singleton.mp hs]; exact Or.inl rfl)⟩

/-- C5 counterexample: the claim says rounding is half-away-from-zero,
so a bucket minimum of -1.25 would round to -1.3; the code uses JS
`Math.round(x*10)/10`, which rounds halves toward positive infinity,
so the aggregated minimum is -1.2 (= -6/5), not -1.3 (= -13/10). -/
theorem round1_neg_boundary_cex :
    (aggregate [⟨some "2024-01-01 00:00:00", some (mkRat (-5) 4), some (mkRat (-5) 4),
                 none, "", ""⟩] 6).map ForecastDay.fmin = [mkRat (-6) 5]
    ∧ (mkRat (-6) 5 : ℚ) ≠ mkRat (-13) 10 := by decide

/-- C5 (amended): the aggregator rounds each output temperature to one
decimal place with `Math.round` semantics — halves toward positive
infinity (`jsRound x = ⌊x + 1/2⌋`): 1.25 rounds to 1.3 but -1.25
rounds to -1.2. -/
theorem aggregate_round_half_up :
    (∀ x : ℚ, aggregate [⟨some "2024-01-01 00:00:00", some x, some x, none, "", ""⟩] 6 =
        [⟨"2024-01-01", round1 x, round1 x, "", ""⟩])
    ∧ (∀ x : ℚ, jsRound x = ⌊x + mkRat 1 2⌋)
    ∧ round1 (mkRat 5 4) = mkRat 13 10
    ∧ round1 (mkRat (-5) 4) = mkRat (-6) 5 := by
  refine ⟨fun x => rfl, ?_, by decide, by decide⟩
  intro x
  have hden : ((2 * x.den : Nat) : ℚ) ≠ 0 := by
    have := x.den_nz
    positivity
  have hd : (x.den : ℚ) ≠ 0 := by
    have := x.den_nz
    exact_mod_cast this
  have hx : x + mkRat 1 2 =
      (((2 * x.num + (x.den : Int)) : Int) : ℚ) / (((2 * x.den : Nat) : Nat) : ℚ) := by
    conv_lhs => rw [← Rat.num_div_den x]
    rw [Rat.mkRat_eq_div]
    push_cast
    field_simp
    ring
  rw [hx, Rat.floor_intCast_div_natCast]
  unfold jsRound
  congr 1

/-- The non-empty descriptions of a run of samples, in order — what the
loop's `if (desc) byDay[dateKey].descriptions.push(desc)` accumulates. -/
def nonemptyDescs (l : List Sample) : List String :=
  l.filterMap (fun s => if s.description = "" then none else some s.description)

/-- The non-empty icons of a run of samples, in order — what the loop's
`if (icon) byDay[dateKey].icons.push(icon)` accumulates. -/
def nonemptyIcons (l : List Sample) : List String :=
  l.filterMap (fun s => if s.icon = "" then none else some s.icon)

/-- Folding a run of same-date samples into an optional bucket, one
`updBucket` per sample — the per-key trace of the aggregation loop. -/
def bucketFold (ob : Option Bucket) (l : List Sample) : Option Bucket :=
  l.foldl (fun ob s => some (updBucket ob s)) ob

theorem ByDay.lookup_append_of_none {acc : ByDay} {k : String}
    (h : ByDay.lookup acc k = none) (l : ByDay) :
    ByDay.lookup (List.append acc l) k = ByDay.lookup l k := by
  induction acc with
  | nil => rfl
  | cons p rest ih =>
    obtain ⟨k0, b0⟩ := p
    by_cases hk : k0 = k
    · simp [ByDay.lookup, hk] at h
    · simp only [ByDay.lookup, hk, if_false] at h
      simp only [List.append_eq, List.cons_append, ByDay.lookup, hk, if_false] at ih ⊢
      exact ih h

theorem ByDay.lookup_append_single_ne (acc : ByDay) (k dk : String) (b : Bucket)
    (h : dk ≠ k) : ByDay.lookup (List.append acc [(dk, b)]) k = ByDay.lookup acc k := by
  induction acc with
  | nil => simp [ByDay.lookup, h]
  | cons p rest ih =>
    obtain ⟨k0, b0⟩ := p
    by_cases hk : k0 = k
    · simp [ByDay.lookup, hk]
    · simp only [List.append_eq, List.cons_append, ByDay.lookup, hk, if_false] at ih ⊢
      exact ih

theorem ByDay.lookup_map_update_self : ∀ (acc : ByDay) (k : String) (b nb : Bucket),
    ByDay.lookup acc k = some b →
    ByDay.lookup (acc.map (fun p => if p.1 = k then (k, nb) else p)) k = some nb := by
  intro acc
  induction acc with
  | nil => intro k b nb h; cases h
  | cons p rest ih =>
    intro k b nb h
    obtain ⟨k0, b0⟩ := p
    by_cases hk : k0 = k
    · subst hk
      simp only [List.map_cons]
      simp [ByDay.lookup]
    · simp only [ByDay.lookup, hk, if_false] at h
      simp only [List.map_cons]
      rw [show (if (k0, b0).1 = k then (k, nb) else (k0, b0)) = (k0, b0) from if_neg hk]
      simp only [ByDay.lookup, hk, if_false]
      exact ih k b nb h

theorem ByDay.lookup_map_update_ne : ∀ (acc : ByDay) (dk : String) (nb : Bucket) (k : String),
    dk ≠ k →
    ByDay.lookup (acc.map (fun p => if p.1 = dk then (dk, nb) else p)) k =
      ByDay.lookup acc k := by
  intro acc
  induction acc with
  | nil => intro dk nb k _; rfl
  | cons p rest ih =>
    intro dk nb k hdk
    obtain ⟨k0, b0⟩ := p
    simp only [List.map_cons]
    by_cases h0 : k0 = dk
    · subst h0
      rw [show (if (k0, b0).1 = k0 then (k0, nb) else (k0, b0)) = (k0, nb) from if_pos rfl]
      simp only [ByDay.lookup, hdk, if_false]
      exact ih k0 nb k hdk
    · rw [show (if (k0, b0).1 = dk then (dk, nb) else (k0, b0)) = (k0, b0) from if_neg h0]
      by_cases hk : k0 = k
      · simp [ByDay.lookup, hk]
      · simp only [ByDay.lookup, hk, if_false]
        exact ih dk nb k hdk

/-- What one loop iteration does to the bucket stored under any key `k`:
the sample's own (non-empty) date key gets `updBucket`, every other key
is untouched; samples with an empty date key touch nothing. -/
theorem ByDay.lookup_step (acc : ByDay) (s : Sample) (k : String) :
    ByDay.lookup (stepSample acc s) k =
      if s.dateKey = k ∧ k ≠ "" then some (updBucket (ByDay.lookup acc k) s)
      else ByDay.lookup acc k := by
  unfold stepSample
  by_cases hk0 : s.dateKey = ""
  · rw [if_pos hk0, if_neg]
    rintro ⟨hdk, hke⟩
    exact hke (hdk ▸ hk0)
  · rw [if_neg hk0]
    cases hl : ByDay.lookup acc s.dateKey with
    | none =>
      by_cases hdk : s.dateKey = k
      · subst hdk
        rw [if_pos ⟨rfl, hk0⟩, hl, ByDay.lookup_append_of_none hl]
        simp [ByDay.lookup]
      · rw [if_neg (fun h => hdk h.1)]
        exact ByDay.lookup_append_single_ne acc k s.dateKey _ hdk
    | some b =>
      by_cases hdk : s.dateKey = k
      · subst hdk
        rw [if_pos ⟨rfl, hk0⟩, hl]
        exact ByDay.lookup_map_update_self acc s.dateKey b _ hl
      · rw [if_neg (fun h => hdk h.1)]
        exact ByDay.lookup_map_update_ne acc s.dateKey _ k hdk

theorem ByDay.lookup_foldl_empty : ∀ (samples : List Sample) (acc : ByDay),
    ByDay.lookup (samples.foldl stepSample acc) "" = ByDay.lookup acc "" := by
  intro samples
  induction samples with
  | nil => intro acc; rfl
  | cons s rest ih =>
    intro acc
    rw [List.foldl_cons, ih, ByDay.lookup_step, if_neg]
    rintro ⟨_, h⟩
    exact h rfl

/-- The bucket the loop leaves under a non-empty key `k` is exactly the
`updBucket`-fold over the samples whose date key is `k`, in list order. -/
theorem ByDay.lookup_foldl : ∀ (samples : List Sample) (acc : ByDay) (k : String), k ≠ "" →
    ByDay.lookup (samples.foldl stepSample acc) k =
      bucketFold (ByDay.lookup acc k) (samples.filter (fun s => s.dateKey == k)) := by
  intro samples
  induction samples with
  | nil => intro acc k _; rfl
  | cons s rest ih =>
    intro acc k hk
    rw [List.foldl_cons, ih (stepSample acc s) k hk, ByDay.lookup_step, List.filter_cons]
    by_cases hdk : s.dateKey = k
    · rw [if_pos ⟨hdk, hk⟩, if_pos (beq_iff_eq.mpr hdk)]
      rfl
    · rw [if_neg (fun h => hdk h.1), if_neg (by simpa using hdk)]

theorem bucketFold_descs : ∀ (l : List Sample) (b : Bucket),
    ∃ bf, bucketFold (some b) l = some bf
      ∧ bf.descriptions = b.descriptions ++ nonemptyDescs l
      ∧ bf.icons = b.icons ++ nonemptyIcons l := by
  intro l
  induction l with
  | nil =>
    intro b
    exact ⟨b, rfl, by simp [nonemptyDescs], by simp [nonemptyIcons]⟩
  | cons s rest ih =>
    intro b
    obtain ⟨bf, h1, h2, h3⟩ := ih (updBucket (some b) s)
    refine ⟨bf, h1, ?_, ?_⟩
    · rw [h2]
      show (b.descriptions ++ (if s.description = "" then [] else [s.description])) ++
          nonemptyDescs rest = b.descriptions ++ nonemptyDescs (s :: rest)
      rw [List.append_assoc]
      congr 1
      by_cases hd : s.description = "" <;>
        simp [nonemptyDescs, List.filterMap_cons, hd]
    · rw [h3]
      show (b.icons ++ (if s.icon = "" then [] else [s.icon])) ++
          nonemptyIcons rest = b.icons ++ nonemptyIcons (s :: rest)
      rw [List.append_assoc]
      congr 1
      by_cases hi : s.icon = "" <;>
        simp [nonemptyIcons, List.filterMap_cons, hi]

/-- C6 counterexample: the claim says the bucket's description and icon
come from the *first sample encountered* for the date; but when that
first sample's fields are empty, the loop pushes nothing for it and the
output takes a later sample's values — here the second sample's
"rain"/"10d", not the first sample's empty strings. -/
theorem description_first_nonempty_cex :
    (aggregate [⟨some "2024-01-01 00:00:00", some 1, some 1, none, "", ""⟩,
                ⟨some "2024-01-01 03:00:00", some 2, some 2, none, "rain", "10d"⟩] 6).map
        (fun f => (f.description, f.icon)) = [("rain", "10d")]
    ∧ ("rain" : String) ≠ "" := by decide

/-- C6 (amended): for every sample list, every day of the aggregated
forecast carries as description and icon the *first non-empty*
description and the first non-empty icon among all of that date's
samples, in input order (samples whose field is empty are skipped for
that field; `""` when every sample's field is empty) — so a first
sample with non-empty values wins over every later sample, and the
fields are never the most-frequent values. -/
theorem aggregate_description_first_nonempty :
    ∀ (samples : List Sample) (n : Nat), ∀ f ∈ aggregate samples n,
      f.description =
        (nonemptyDescs (samples.filter (fun s => s.dateKey == f.date))).headD ""
      ∧ f.icon =
        (nonemptyIcons (samples.filter (fun s => s.dateKey == f.date))).headD "" := by
  intro samples n f hf
  have he : aggregate samples n =
      ((List.insertionSort strLe (ByDay.keys (samples.foldl stepSample []))).take n).filterMap
        (fun d => (ByDay.lookup (samples.foldl stepSample []) d).map (mkDay d)) := rfl
  rw [he, List.mem_filterMap] at hf
  obtain ⟨d, _, hmap⟩ := hf
  cases hb : ByDay.lookup (samples.foldl stepSample []) d with
  | none => rw [hb] at hmap; cases hmap
  | some b =>
    rw [hb] at hmap
    simp only [Option.map_some', Option.some.injEq] at hmap
    subst hmap
    have hdne : d ≠ "" := by
      intro h0
      rw [h0, ByDay.lookup_foldl_empty samples []] at hb
      cases hb
    have hlf := ByDay.lookup_foldl samples [] d hdne
    rw [hb] at hlf
    have hdate : (mkDay d b).date = d := rfl
    rw [hdate]
    cases hfl : samples.filter (fun s => s.dateKey == d) with
    | nil => rw [hfl] at hlf; cases hlf
    | cons s0 rest =>
      rw [hfl] at hlf
      obtain ⟨bf, h1, h2, h3⟩ := bucketFold_descs rest (updBucket none s0)
      rw [show bucketFold (ByDay.lookup ([] : ByDay) d) (s0 :: rest) =
            bucketFold (some (updBucket none s0)) rest from rfl, h1,
          Option.some.injEq] at hlf
      subst hlf
      constructor
      · show b.descriptions.headD "" = (nonemptyDescs (s0 :: rest)).headD ""
        rw [h2]
        by_cases hd : s0.description = "" <;>
          simp [updBucket, nonemptyDescs, List.filterMap_cons, hd]
      · show b.icons.headD "" = (nonemptyIcons (s0 :: rest)).headD ""
        rw [h3]
        by_cases hi : s0.icon = "" <;>
          simp [updBucket, nonemptyIcons, List.filterMap_cons, hi]

/-- Witness for C6's amended theorem: a three-sample bucket whose first
two samples have empty description and icon; the output day carries the
third sample's "rain"/"10d", the first non-empty values of the date. -/
theorem aggregate_description_first_nonempty_witness :
    ForecastDay.mk "2024-01-01" 1 1 "rain" "10d" ∈
      aggregate [⟨some "2024-01-01 00:00:00", some 1, some 1, none, "", ""⟩,
                 ⟨some "2024-01-01 03:00:00", some 1, some 1, none, "", ""⟩,
                 ⟨some "2024-01-01 06:00:00", some 1, some 1, none, "rain", "10d"⟩] 6
    ∧ ((ForecastDay.mk "2024-01-01" 1 1 "rain" "10d").description =
        (nonemptyDescs
          (([⟨some "2024-01-01 00:00:00", some 1, some 1, none, "", ""⟩,
             ⟨some "2024-01-01 03:00:00", some 1, some 1, none, "", ""⟩,
             ⟨some "2024-01-01 06:00:00", some 1, some 1, none, "rain", "10d"⟩] : List Sample).filter
            (fun s => s.dateKey == (ForecastDay.mk "2024-01-01" 1 1 "rain" "10d").date))).headD ""
       ∧ (ForecastDay.mk "2024-01-01" 1 1 "rain" "10d").icon =
        (nonemptyIcons
          (([⟨some "2024-01-01 00:00:00", some 1, some 1, none, "", ""⟩,
             ⟨some "2024-01-01 03:00:00", some 1, some 1, none, "", ""⟩,
             ⟨some "2024-01-01 06:00:00", some 1, some 1, none, "rain", "10d"⟩] : List Sample).filter
            (fun s => s.dateKey == (ForecastDay.mk "2024-01-01" 1 1 "rain" "10d").date))).headD "") :=
  ⟨by decide,
   aggregate_description_first_nonempty
     [⟨some "2024-01-01 00:00:00", some 1, some 1, none, "", ""⟩,
      ⟨some "2024-01-01 03:00:00", some 1, some 1, none, "", ""⟩,
      ⟨some "2024-01-01 06:00:00", some 1, some 1, none, "rain", "10d"⟩] 6
     (ForecastDay.mk "2024-01-01" 1 1 "rain" "10d") (by decide)⟩

/-- C7 counterexample: requesting a reset answers 200 in both cases, but
the response bodies differ in shape — `{success}` for an unknown email
versus `{success, resetToken, expires}` for a registered one — so the
response does reveal whether the email is registered. -/
theorem requestReset_shape_differs_cex :
    (requestReset "a@b.c" none "tok16" 0).1 = ReqResetResp.successOnly
    ∧ (requestReset "a@b.c" (some 1) "tok16" 0).1 =
        ReqResetResp.successWithToken "tok16" 900000
    ∧ (requestReset "a@b.c" none "tok16" 0).1 ≠ (requestReset "a@b.c" (some 1) "tok16" 0).1 := by
  decide

/-- C7 (amended): for every non-empty email the handler reports HTTP 200
success whether or not a user exists — an unknown email gets a bare
success — but a registered email's response additionally carries the
reset token and expiry, so the body shape differs between the cases. -/
theorem requestReset_always_success :
    ∀ (bodyEmail : String) (lk : Option Nat) (tok : String) (now : Int),
      jsToLower (jsTrim bodyEmail) ≠ "" →
      ((requestReset bodyEmail lk tok now).1.httpStatus = 200
       ∧ (requestReset bodyEmail none tok now).1 = ReqResetResp.successOnly
       ∧ ∀ uid : Nat, (requestReset bodyEmail (some uid) tok now).1 =
           ReqResetResp.successWithToken tok (now + 15 * 60 * 1000)) := by
  intro e lk tok now h
  refine ⟨?_, ?_, ?_⟩
  · cases lk <;> simp [requestReset, h, ReqResetResp.httpStatus]
  · simp [requestReset, h]
  · intro uid
    simp [requestReset, h]

/-- Witness for C7's amended theorem at a concrete email. -/
theorem requestReset_always_success_witness :
    jsToLower (jsTrim "A@b.c") ≠ ""
    ∧ (requestReset "A@b.c" (some 1) "tok" 0).1.httpStatus = 200 :=
  ⟨by decide, (requestReset_always_success "A@b.c" (some 1) "tok" 0 (by decide)).1⟩

/-- C4 counterexample: two consumes that fail for different reasons — no
pending token versus an expired token — produce observably different
responses (both 400, but with different bodies), so the outcome does
distinguish which check failed. -/
theorem resetFailure_responses_differ_cex :
    (consumeReset (some ⟨1, "h", none, none⟩) "a@b" "t" "secret1" 0 "nh").1.response =
      (400, "reset not requested")
    ∧ (consumeReset (some ⟨1, "h", some "t", some 100⟩) "a@b" "t" "secret1" 200 "nh").1.response =
      (400, "token expired")
    ∧ (consumeReset (some ⟨1, "h", none, none⟩) "a@b" "t" "secret1" 0 "nh").1.response ≠
      (consumeReset (some ⟨1, "h", some "t", some 100⟩) "a@b" "t" "secret1" 200 "nh").1.response := by
  decide

/-- C4 (amended): every failing consume — missing fields, short
password, no pending token, token mismatch, or expiry — returns the
uniform HTTP status 400; only the JSON error message distinguishes the
checks. -/
theorem resetFailure_uniform_status :
    ∀ (row : Option UserRow) (email tok pw : String) (now : Int) (nh : String),
      (consumeReset row email tok pw now nh).1 ≠ ResetResp.success →
      ((consumeReset row email tok pw now nh).1.response).1 = 400 := by
  intro row email tok pw now nh h
  cases hr : (consumeReset row email tok pw now nh).1 <;>
    first
      | rfl
      | exact absurd hr h

/-- Witness for C4's amended theorem at a concrete failing consume. -/
theorem resetFailure_uniform_status_witness :
    (consumeReset (some ⟨1, "h", some "t", some 100⟩) "a@b" "t" "secret1" 200 "nh").1 ≠
      ResetResp.success
    ∧ ((consumeReset (some ⟨1, "h", some "t", some 100⟩) "a@b" "t" "secret1" 200 "nh").1.response).1 =
      400 :=
  ⟨by decide,
   resetFailure_uniform_status (some ⟨1, "h", some "t", some 100⟩) "a@b" "t" "secret1" 200 "nh"
     (by decide)⟩

/-- C2: on the specification's sample list (2024-01-01 with temperatures
2, 5, 8 and 2024-01-02 with -1, 3) the aggregator returns exactly the
two expected day summaries in date order; for every sample list the
output dates are sorted strictly ascending (sorted and duplicate-free)
and the output length is at most `maxDays`; the empty list yields the
empty forecast. -/
theorem aggregate_spec_properties :
    (aggregate specSamples 6).map (fun d => (d.date, d.fmin, d.fmax)) =
      [("2024-01-01", 2, 8), ("2024-01-02", -1, 3)]
    ∧ (∀ samples : List Sample,
        ((aggregate samples 6).map ForecastDay.date).Sorted strLe ∧
        ((aggregate samples 6).map ForecastDay.date).Nodup)
    ∧ (∀ (samples : List Sample) (maxDays : Nat),
        (aggregate samples maxDays).length ≤ maxDays)
    ∧ aggregate [] 6 = [] := by
  refine ⟨by decide, ?_, ?_, rfl⟩
  · intro samples
    have he : aggregate samples 6 =
        ((List.insertionSort strLe (ByDay.keys (samples.foldl stepSample []))).take 6).filterMap
          (fun d => (ByDay.lookup (samples.foldl stepSample []) d).map (mkDay d)) := rfl
    rw [he]
    have hsub :=
      (map_date_filterMap_sublist (samples.foldl stepSample [])
        ((List.insertionSort strLe (ByDay.keys (samples.foldl stepSample []))).take 6)).trans
        (List.take_sublist 6 _)
    have hsorted :
        (List.insertionSort strLe (ByDay.keys (samples.foldl stepSample []))).Sorted strLe :=
      List.sorted_insertionSort strLe _
    have hnodup :
        (List.insertionSort strLe (ByDay.keys (samples.foldl stepSample []))).Nodup :=
      ((List.perm_insertionSort strLe _).nodup_iff).mpr
        (ByDay.keys_foldl_nodup samples [] (by simp [ByDay.keys]))
    exact ⟨List.Pairwise.sublist hsub hsorted, List.Nodup.sublist hsub hnodup⟩
  · intro samples maxDays
    have he : aggregate samples maxDays =
        ((List.insertionSort strLe (ByDay.keys (samples.foldl stepSample []))).take
            maxDays).filterMap
          (fun d => (ByDay.lookup (samples.foldl stepSample []) d).map (mkDay d)) := rfl
    rw [he]
    exact le_trans (List.length_filterMap_le _ _) (List.length_take_le maxDays _)

/-- C3: a pending reset token is consumed successfully only when the
submitted token exactly equals the stored one and `now` is at most the
expiry; with the correct token it still fails once the expiry has
passed; a successful consume replaces the credential with the new hash
and clears the token and expiry in the same row update, so an immediate
replay of the same token fails. -/
theorem consumeReset_token_lifecycle :
    (∀ (r : UserRow) (email tok pw : String) (now : Int) (nh : String) (e : Int),
        r.reset_token = some (jsTrim tok) → r.reset_expires = some e → e < now →
        (consumeReset (some r) email tok pw now nh).1 ≠ ResetResp.success)
    ∧ (∀ (r : UserRow) (email tok pw : String) (now : Int) (nh : String),
        (consumeReset (some r) email tok pw now nh).1 = ResetResp.success →
        r.reset_token = some (jsTrim tok) ∧ ∃ e, r.reset_expires = some e ∧ now ≤ e)
    ∧ (∀ (r : UserRow) (email tok pw : String) (now : Int) (nh : String),
        (consumeReset (some r) email tok pw now nh).1 = ResetResp.success →
        (consumeReset (some r) email tok pw now nh).2 =
          some ⟨r.id, nh, none, none⟩)
    ∧ (∀ (r : UserRow) (email tok pw : String) (now : Int) (nh : String)
        (email2 tok2 pw2 : String) (now2 : Int) (nh2 : String),
        (consumeReset (some r) email tok pw now nh).1 = ResetResp.success →
        (consumeReset ((consumeReset (some r) email tok pw now nh).2)
            email2 tok2 pw2 now2 nh2).1 ≠ ResetResp.success) := by
  refine ⟨?_, ?_, ?_, ?_⟩
  · intro r email tok pw now nh e _ hexp hlt
    exact consumeReset_expired_fails r email tok pw now nh e hexp hlt
  · intro r email tok pw now nh h
    exact ⟨(consumeReset_success_shape r email tok pw now nh h).1,
           (consumeReset_success_shape r email tok pw now nh h).2.1⟩
  · intro r email tok pw now nh h
    exact (consumeReset_success_shape r email tok pw now nh h).2.2
  · intro r email tok pw now nh email2 tok2 pw2 now2 nh2 h
    rw [(consumeReset_success_shape r email tok pw now nh h).2.2]
    exact consumeReset_no_token ⟨r.id, nh, none, none⟩ rfl email2 tok2 pw2 now2 nh2

/-- Witness for C3: a concrete expired-token failure and a concrete
successful consume whose replay fails. -/
theorem consumeReset_token_lifecycle_witness :
    (UserRow.mk 1 "old" (some "tokk") (some 100)).reset_token = some (jsTrim "tokk")
    ∧ (UserRow.mk 1 "old" (some "tokk") (some 100)).reset_expires = some 100
    ∧ (100 : Int) < 200
    ∧ (consumeReset (some (UserRow.mk 1 "old" (some "tokk") (some 100)))
        "a@b" "tokk" "secret1" 200 "new").1 ≠ ResetResp.success
    ∧ (consumeReset (some (UserRow.mk 1 "old" (some "tokk") (some 300)))
        "a@b" "tokk" "secret1" 200 "new").1 = ResetResp.success
    ∧ (consumeReset ((consumeReset (some (UserRow.mk 1 "old" (some "tokk") (some 300)))
        "a@b" "tokk" "secret1" 200 "new").2) "a@b" "tokk" "secret2" 200 "new2").1 ≠
      ResetResp.success :=
  ⟨by decide, by decide, by decide,
   consumeReset_token_lifecycle.1 (UserRow.mk 1 "old" (some "tokk") (some 100))
     "a@b" "tokk" "secret1" 200 "new" 100 (by decide) (by decide) (by decide),
   by decide,
   consumeReset_token_lifecycle.2.2.2 (UserRow.mk 1 "old" (some "tokk") (some 300))
     "a@b" "tokk" "secret1" 200 "new" "a@b" "tokk" "secret2" 200 "new2" (by decide)⟩
